import Mathlib

/-!
Shallow embedding of `0x02-redis_basic/web.py`: a caching and usage-tracking
layer in front of a page fetcher.  Byte strings are modelled as `List Nat`
(each element a byte value), the Redis store as a finite map from string keys
to entries carrying a byte value and an optional TTL, and the decorated
`get_page` wrapper as an explicit state-passing function that also reports
how many times the injected page-fetch function was invoked.
-/

/-! ### Bytes, hex digits, decimal representation -/

/-- Lowercase hex digit for a value below 16 (as produced by `%x` formatting). -/
def hexChar (n : Nat) : Char :=
  if n < 10 then Char.ofNat (48 + n) else Char.ofNat (87 + n)

/-- Two-character lowercase hex rendering of one byte (`%02x`). -/
def byteHex (b : Nat) : List Char :=
  [hexChar (b / 16 % 16), hexChar (b % 16)]

/-- Lowercase hex rendering of a byte string, as `bytes.hex()` / `hexdigest`. -/
def bytesHex (bs : List Nat) : String :=
  ⟨(bs.map byteHex).flatten⟩

/-- ASCII decimal rendering of a natural number, most significant digit
first, as Redis stores integer values. -/
def decEncode (n : Nat) : List Nat :=
  if n = 0 then [48] else ((Nat.digits 10 n).map (· + 48)).reverse

/-- Parse an ASCII decimal byte string back to a natural number; `none` when
the bytes are not a nonempty string of decimal digits. -/
def decDecode? (bs : List Nat) : Option Nat :=
  if bs ≠ [] ∧ bs.all (fun b => 48 ≤ b && b < 58) then
    some (Nat.ofDigits 10 ((bs.map (· - 48)).reverse))
  else
    none

/-! ### UTF-8 encoding and decoding

Python's `str.encode()` produces the UTF-8 bytes of the string and
`bytes.decode("utf-8")` parses them back (strict mode: continuation bytes,
overlong forms, surrogates and out-of-range values are rejected). -/

/-- UTF-8 bytes of a single code point. -/
def utf8EncodeChar (c : Char) : List Nat :=
  let v := c.toNat
  if v < 128 then [v]
  else if v < 2048 then [192 + v / 64, 128 + v % 64]
  else if v < 65536 then [224 + v / 4096, 128 + v / 64 % 64, 128 + v % 64]
  else [240 + v / 262144, 128 + v / 4096 % 64, 128 + v / 64 % 64, 128 + v % 64]

/-- UTF-8 bytes of a string, as `str.encode()`. -/
def utf8Encode (s : String) : List Nat :=
  (s.data.map utf8EncodeChar).flatten

/-- Read the single continuation byte of a 2-byte UTF-8 sequence with lead
byte `b0` (the lead-byte range `194 ≤ b0 < 224` already excludes overlong
2-byte forms). -/
def utf8Cont1 (b0 : Nat) : List Nat → Option (Nat × List Nat)
  | b1 :: bs =>
    if 128 ≤ b1 ∧ b1 < 192 then some ((b0 - 192) * 64 + (b1 - 128), bs)
    else none
  | [] => none

/-- Read the two continuation bytes of a 3-byte UTF-8 sequence with lead
byte `b0`, rejecting overlong forms and surrogate code points. -/
def utf8Cont2 (b0 : Nat) : List Nat → Option (Nat × List Nat)
  | b1 :: b2 :: bs =>
    if (128 ≤ b1 ∧ b1 < 192) ∧ (128 ≤ b2 ∧ b2 < 192) then
      let v := (b0 - 224) * 4096 + (b1 - 128) * 64 + (b2 - 128)
      if v < 2048 ∨ (55296 ≤ v ∧ v < 57344) then none else some (v, bs)
    else none
  | _ => none

/-- Read the three continuation bytes of a 4-byte UTF-8 sequence with lead
byte `b0`, rejecting overlong forms and values above `0x10FFFF`. -/
def utf8Cont3 (b0 : Nat) : List Nat → Option (Nat × List Nat)
  | b1 :: b2 :: b3 :: bs =>
    if (128 ≤ b1 ∧ b1 < 192) ∧ (128 ≤ b2 ∧ b2 < 192) ∧ (128 ≤ b3 ∧ b3 < 192) then
      let v := (b0 - 240) * 262144 + (b1 - 128) * 4096
          + (b2 - 128) * 64 + (b3 - 128)
      if v < 65536 ∨ 1114112 ≤ v then none else some (v, bs)
    else none
  | _ => none

/-- Decode one code point from the front of a byte stream (strict UTF-8:
stray continuation bytes, overlong encodings, surrogates and out-of-range
values are rejected); returns the code point and the remaining bytes. -/
def utf8DecodeOne : List Nat → Option (Nat × List Nat)
  | [] => none
  | b0 :: bs =>
    if b0 < 128 then some (b0, bs)
    else if b0 < 194 then none
    else if b0 < 224 then utf8Cont1 b0 bs
    else if b0 < 240 then utf8Cont2 b0 bs
    else if b0 < 245 then utf8Cont3 b0 bs
    else none

/-- Decode code points from the front of a byte stream until it is
exhausted, failing if any step fails.  Each decoded code point consumes at
least one byte, so a fuel of the stream length always suffices; the fuel
argument only makes the recursion structural. -/
def utf8DecodeLoop : Nat → List Nat → Option (List Char)
  | _, [] => some []
  | 0, _ :: _ => none
  | fuel + 1, b0 :: bs =>
    match utf8DecodeOne (b0 :: bs) with
    | none => none
    | some (v, rem) =>
      (utf8DecodeLoop fuel rem).map (fun cs => Char.ofNat v :: cs)

/-- Strict UTF-8 decoder on byte lists. -/
def utf8DecodeList (bs : List Nat) : Option (List Char) :=
  utf8DecodeLoop bs.length bs

/-- Strict UTF-8 decoding of a byte string, as `bytes.decode("utf-8")`. -/
def utf8Decode? (bs : List Nat) : Option String :=
  (utf8DecodeList bs).map (fun cs => (⟨cs⟩ : String))

/-! ### MD5 (RFC 1321), over byte lists, with lowercase hex digest

Faithful model of `hashlib.md5(data).hexdigest()`: pad the message, process
512-bit blocks with the 64-step compression function, serialise the four
32-bit state words little-endian and render them as lowercase hex. -/

/-- Truncate to 32 bits. -/
def trunc32 (x : Nat) : Nat := x % 4294967296

/-- 32-bit bitwise complement. -/
def not32 (x : Nat) : Nat := trunc32 x ^^^ 4294967295

/-- 32-bit left rotation (inputs are kept below `2^32`). -/
def rotl32 (x s : Nat) : Nat :=
  trunc32 (trunc32 x <<< s) ||| (trunc32 x >>> (32 - s))

/-- The 64 sine-derived MD5 constants `K[i] = floor(2^32 * |sin(i+1)|)`. -/
def md5K : List Nat :=
  [3614090360, 3905402710, 606105819, 3250441966,
   4118548399, 1200080426, 2821735955, 4249261313,
   1770035416, 2336552879, 4294925233, 2304563134,
   1804603682, 4254626195, 2792965006, 1236535329,
   4129170786, 3225465664, 643717713, 3921069994,
   3593408605, 38016083, 3634488961, 3889429448,
   568446438, 3275163606, 4107603335, 1163531501,
   2850285829, 4243563512, 1735328473, 2368359562,
   4294588738, 2272392833, 1839030562, 4259657740,
   2763975236, 1272893353, 4139469664, 3200236656,
   681279174, 3936430074, 3572445317, 76029189,
   3654602809, 3873151461, 530742520, 3299628645,
   4096336452, 1126891415, 2878612391, 4237533241,
   1700485571, 2399980690, 4293915773, 2240044497,
   1873313359, 4264355552, 2734768916, 1309151649,
   4149444226, 3174756917, 718787259, 3951481745]

/-- The per-step left-rotation amounts. -/
def md5S : List Nat :=
  [7, 12, 17, 22, 7, 12, 17, 22, 7, 12, 17, 22, 7, 12, 17, 22,
   5, 9, 14, 20, 5, 9, 14, 20, 5, 9, 14, 20, 5, 9, 14, 20,
   4, 11, 16, 23, 4, 11, 16, 23, 4, 11, 16, 23, 4, 11, 16, 23,
   6, 10, 15, 21, 6, 10, 15, 21, 6, 10, 15, 21, 6, 10, 15, 21]

/-- Nonlinear function and message-word index for step `i`. -/
def md5FG (b c d i : Nat) : Nat × Nat :=
  if i < 16 then ((b &&& c) ||| (not32 b &&& d), i)
  else if i < 32 then ((d &&& b) ||| (not32 d &&& c), (5 * i + 1) % 16)
  else if i < 48 then (b ^^^ c ^^^ d, (3 * i + 5) % 16)
  else (c ^^^ (b ||| not32 d), (7 * i) % 16)

/-- One of the 64 steps of the MD5 compression function.
`M` gives the sixteen 32-bit words of the current block. -/
def md5Step (M : Nat → Nat) (st : Nat × Nat × Nat × Nat) (i : Nat) :
    Nat × Nat × Nat × Nat :=
  let a := st.1
  let b := st.2.1
  let c := st.2.2.1
  let d := st.2.2.2
  let fg := md5FG b c d i
  let t := trunc32 (a + fg.1 + md5K.getD i 0 + M fg.2)
  (d, trunc32 (b + rotl32 t (md5S.getD i 0)), b, c)

/-- The MD5 compression function applied to one block. -/
def md5Compress (M : Nat → Nat) (st : Nat × Nat × Nat × Nat) :
    Nat × Nat × Nat × Nat :=
  let r := (List.range 64).foldl (md5Step M) st
  (trunc32 (st.1 + r.1), trunc32 (st.2.1 + r.2.1),
   trunc32 (st.2.2.1 + r.2.2.1), trunc32 (st.2.2.2 + r.2.2.2))

/-- Little-endian serialisation of a 32-bit word into 4 bytes. -/
def toLE4 (w : Nat) : List Nat :=
  [w % 256, w / 256 % 256, w / 65536 % 256, w / 16777216 % 256]

/-- Little-endian serialisation of a 64-bit length field into 8 bytes. -/
def toLE8 (w : Nat) : List Nat :=
  toLE4 (w % 4294967296) ++ toLE4 (w / 4294967296 % 4294967296)

/-- MD5 padding: a `0x80` byte, zeros to 56 mod 64, then the bit length. -/
def md5Pad (msg : List Nat) : List Nat :=
  msg ++ [128] ++ List.replicate ((119 - msg.length % 64) % 64) 0
      ++ toLE8 (msg.length * 8)

/-- Word `g` (0-based) of block `blk` of a padded message, little-endian. -/
def md5Word (padded : List Nat) (blk g : Nat) : Nat :=
  let o := blk * 64 + g * 4
  padded.getD o 0 + 256 * padded.getD (o + 1) 0
    + 65536 * padded.getD (o + 2) 0 + 16777216 * padded.getD (o + 3) 0

/-- The 16-byte MD5 digest of a byte string. -/
def md5Digest (msg : List Nat) : List Nat :=
  let padded := md5Pad msg
  let nb := padded.length / 64
  let st := (List.range nb).foldl
    (fun st blk => md5Compress (md5Word padded blk) st)
    (1732584193, 4023233417, 2562383102, 271733878)
  toLE4 st.1 ++ toLE4 st.2.1 ++ toLE4 st.2.2.1 ++ toLE4 st.2.2.2

/-- Lowercase hex MD5 digest of a byte string, as
`hashlib.md5(data).hexdigest()`. -/
def md5Hexdigest (msg : List Nat) : String :=
  bytesHex (md5Digest msg)

/-! ### The key-value store

Modelled from the spec: the Store collaborator (spec section 6) is external to
the repository (a Redis client).  It maps string keys to byte-string values
with optional TTLs; `increment` is an atomic increment with implicit zero
start that stores the decimal rendering of the counter and keeps any TTL,
`get` returns the stored bytes or absent, `setex` stores bytes with a TTL. -/

/-- One stored entry: a byte-string value and an optional TTL in seconds
(`none` means the entry does not expire). -/
structure Entry where
  value : List Nat
  ttl : Option Nat
deriving DecidableEq

/-- The store state: a map from string keys to entries. -/
abbrev Store := String → Option Entry

/-- The empty store. -/
def Store.empty : Store := fun _ => none

/-- Write an entry at a key. -/
def Store.set (s : Store) (k : String) (e : Entry) : Store :=
  fun q => if q = k then some e else s q

/-- Modelled from the spec: `Store.get` returns the stored bytes or absent. -/
def Store.get (s : Store) (k : String) : Option (List Nat) :=
  (s k).map Entry.value

/-- The integer value a key holds as a counter: its decimal-parsed value,
zero when the key is absent (implicit zero start). -/
def Store.readNat (s : Store) (k : String) : Nat :=
  match Store.get s k with
  | none => 0
  | some v => (decDecode? v).getD 0

/-- Modelled from the spec: `Store.increment` — atomic increment of a named
counter with implicit zero start; the new decimal value is stored and an
existing TTL is kept. -/
def Store.incr (s : Store) (k : String) : Store :=
  Store.set s k ⟨decEncode (Store.readNat s k + 1), (s k).bind Entry.ttl⟩

/-- Modelled from the spec: `Store.setex` stores a value with a TTL after
which the store itself expires the entry. -/
def Store.setex (s : Store) (k : String) (ttl : Nat) (v : List Nat) : Store :=
  Store.set s k ⟨v, some ttl⟩

/-! ### The program: `web.py` -/

/-- Constant for cache expiration time (10 seconds), `CACHE_EXPIRATION`. -/
def CACHE_EXPIRATION : Nat := 10

/-- `sanitize_url`: generates a Redis-friendly key by hashing the URL —
`hashlib.md5(url.encode()).hexdigest()`. -/
def sanitize_url (url : String) : String :=
  md5Hexdigest (utf8Encode url)

/-- An error escaping the wrapper: either a failure `e` raised by the
injected page-fetch function, or a `UnicodeDecodeError` from decoding a
cached value that is not valid UTF-8. -/
inductive PyErr (ε : Type) where
  | fetch (e : ε)
  | decode
deriving DecidableEq

/-- What one call of the wrapper produces: its return value (or the error it
raises), the store state it leaves behind, and how many times it invoked the
injected page-fetch function. -/
structure FetchOutcome (ε : Type) where
  result : Except (PyErr ε) String
  store : Store
  fetchCalls : Nat

/-- The miss path of the wrapper: call `fn(url)`; on success store the
response under the cache key with `CACHE_EXPIRATION` and return it, on
failure propagate the failure.  Either way `fn` was invoked once. -/
def missFetch (fn : String → Except ε String) (url : String) (s1 : Store)
    (cache_key : String) : FetchOutcome ε :=
  match fn url with
  | Except.error e => ⟨Except.error (PyErr.fetch e), s1, 1⟩
  | Except.ok response =>
    ⟨Except.ok response,
     Store.setex s1 cache_key CACHE_EXPIRATION (utf8Encode response), 1⟩

/-- The wrapper built by the `track_get_page` decorator, with the store
passed explicitly and the page-fetch function `fn` injected.  It increments
`count:<url>`, derives the cache key with `sanitize_url`, returns the
decoded cached value when one is present and truthy (Python's
`if cached_page:` — a present but empty value is treated as a miss), and
otherwise fetches and caches with `CACHE_EXPIRATION`. -/
def track_get_page (fn : String → Except ε String) (url : String)
    (s : Store) : FetchOutcome ε :=
  let s1 := Store.incr s ("count:" ++ url)
  let cache_key := sanitize_url url
  match Store.get s1 cache_key with
  | some v =>
    if v = [] then
      missFetch fn url s1 cache_key
    else
      match utf8Decode? v with
      | some page => ⟨Except.ok page, s1, 0⟩
      | none => ⟨Except.error PyErr.decode, s1, 0⟩
  | none => missFetch fn url s1 cache_key

/-- The code's miss condition: the cache key is absent or holds a value that
is falsy in Python (the empty byte string). -/
def missAt (s : Store) (url : String) : Prop :=
  Store.get s (sanitize_url url) = none ∨
    Store.get s (sanitize_url url) = some []

instance (s : Store) (url : String) : Decidable (missAt s url) := by
  unfold missAt
  infer_instance

instance exceptDecEq {e a : Type} [DecidableEq e] [DecidableEq a] :
    DecidableEq (Except e a) := fun x y =>
  match x, y with
  | Except.ok v, Except.ok w =>
    decidable_of_iff (v = w) (by constructor <;> (intro h; cases h; rfl))
  | Except.error v, Except.error w =>
    decidable_of_iff (v = w) (by constructor <;> (intro h; cases h; rfl))
  | Except.ok _, Except.error _ => isFalse (by intro h; cases h)
  | Except.error _, Except.ok _ => isFalse (by intro h; cases h)

/-! ### Concrete fixtures used by witnesses and counterexamples -/

/-- A stub page fetcher that always succeeds with `"hello"`. -/
def pageFnHello : String → Except Unit String := fun _ => Except.ok "hello"

/-- A stub page fetcher that always succeeds with `"x"`. -/
def pageFnX : String → Except Unit String := fun _ => Except.ok "x"

/-- A stub page fetcher that always succeeds with the empty page. -/
def pageFnEmpty : String → Except Unit String := fun _ => Except.ok ""

/-- A stub page fetcher that always fails with error `7`. -/
def pageFnFail : String → Except Nat String := fun _ => Except.error 7

/-- A store whose only entry is an empty (falsy) value under the cache key
of `"u"`, with a TTL. -/
def storeEmptyEntry : Store :=
  Store.set Store.empty (sanitize_url "u") ⟨[], some 10⟩

/-- A store whose only entry is the single byte `h` under the cache key of
`"u"`, with a TTL. -/
def storeHEntry : Store :=
  Store.set Store.empty (sanitize_url "u") ⟨[104], some 5⟩

/-! ### Facts about the hex digest -/

/-- A lowercase hexadecimal digit: `0`–`9` or `a`–`f`. -/
def hexLower (c : Char) : Prop :=
  (48 ≤ c.toNat ∧ c.toNat ≤ 57) ∨ (97 ≤ c.toNat ∧ c.toNat ≤ 102)

instance (c : Char) : Decidable (hexLower c) := by
  unfold hexLower
  infer_instance

theorem hexChar_hexLower : ∀ n, n < 16 → hexLower (hexChar n) := by decide

theorem hexData_length (bs : List Nat) :
    ((bs.map byteHex).flatten).length = 2 * bs.length := by
  induction bs with
  | nil => rfl
  | cons b t ih =>
    simp only [List.map_cons, List.flatten_cons, List.length_append,
      List.length_cons, ih, byteHex, List.length_nil]
    omega

theorem hexData_hexLower (bs : List Nat) :
    ∀ c ∈ (bs.map byteHex).flatten, hexLower c := by
  intro c hc
  rw [List.mem_flatten] at hc
  obtain ⟨l, hl, hcl⟩ := hc
  rw [List.mem_map] at hl
  obtain ⟨b, _, rfl⟩ := hl
  simp only [byteHex, List.mem_cons, List.not_mem_nil, or_false] at hcl
  rcases hcl with rfl | rfl
  · exact hexChar_hexLower _ (Nat.mod_lt _ (by omega))
  · exact hexChar_hexLower _ (Nat.mod_lt _ (by omega))

theorem md5Digest_length (msg : List Nat) : (md5Digest msg).length = 16 := by
  simp [md5Digest, toLE4]

theorem sanitize_url_len (url : String) : (sanitize_url url).length = 32 := by
  show ((md5Digest (utf8Encode url)).map byteHex).flatten.length = 32
  rw [hexData_length, md5Digest_length]

theorem sanitize_url_hex (url : String) :
    ∀ c ∈ (sanitize_url url).data, hexLower c :=
  hexData_hexLower (md5Digest (utf8Encode url))

/-- The counter key `count:<u>` is never a cache key `sanitize_url v`: every
character of a hex digest is a lowercase hex digit but the sixth character of
the counter key is `:`. -/
theorem countKey_ne_cacheKey (u v : String) :
    ("count:" ++ u) ≠ sanitize_url v := by
  intro h
  have hmem : (':' : Char) ∈ (sanitize_url v).data := by
    rw [← h, String.data_append]
    exact List.mem_append.mpr (Or.inl (by decide))
  exact absurd (sanitize_url_hex v ':' hmem) (by decide)

/-! ### The decimal round trip used by counters -/

theorem decDecode?_decEncode (n : Nat) : decDecode? (decEncode n) = some n := by
  rcases Nat.eq_zero_or_pos n with h0 | hpos
  · subst h0
    decide
  · have henc : decEncode n = ((Nat.digits 10 n).map (· + 48)).reverse := by
      unfold decEncode
      rw [if_neg (by omega)]
    have hne : Nat.digits 10 n ≠ [] :=
      Nat.digits_ne_nil_iff_ne_zero.mpr (by omega)
    have hlt : ∀ d ∈ Nat.digits 10 n, d < 10 := fun d hd =>
      Nat.digits_lt_base (by norm_num) hd
    have hcond : ((Nat.digits 10 n).map (· + 48)).reverse ≠ [] ∧
        (((Nat.digits 10 n).map (· + 48)).reverse.all
          (fun b => 48 ≤ b && b < 58)) = true := by
      constructor
      · simp [hne]
      · rw [List.all_eq_true]
        intro b hb
        rw [List.mem_reverse, List.mem_map] at hb
        obtain ⟨d, hd, rfl⟩ := hb
        have := hlt d hd
        simp only [Bool.and_eq_true, decide_eq_true_eq]
        omega
    rw [henc]
    unfold decDecode?
    rw [if_pos hcond]
    congr 1
    rw [List.map_reverse, List.reverse_reverse, List.map_map]
    have hmap : ((Nat.digits 10 n).map ((fun b => b - 48) ∘ (· + 48)))
        = (Nat.digits 10 n).map id :=
      List.map_congr_left (fun a _ => by simp)
    rw [hmap, List.map_id]
    exact Nat.ofDigits_digits 10 n

/-! ### The UTF-8 round trip -/

theorem char_toNat_valid (c : Char) :
    c.toNat < 55296 ∨ (57343 < c.toNat ∧ c.toNat < 1114112) := by
  have h : Nat.isValidChar c.toNat := c.valid
  unfold Nat.isValidChar at h
  rcases h with h | ⟨h1, h2⟩
  · exact Or.inl h
  · exact Or.inr ⟨h1, h2⟩

theorem utf8EncodeChar_ne_nil (c : Char) : utf8EncodeChar c ≠ [] := by
  simp only [utf8EncodeChar]
  split_ifs <;> simp

/-- Decoding one code point from the UTF-8 bytes of a character at the head
of a stream yields exactly that character's code point. -/
theorem utf8DecodeOne_encodeChar (c : Char) (bs : List Nat) :
    utf8DecodeOne (utf8EncodeChar c ++ bs) = some (c.toNat, bs) := by
  have hvalid := char_toNat_valid c
  by_cases h1 : c.toNat < 128
  · have henc : utf8EncodeChar c = [c.toNat] := by
      simp only [utf8EncodeChar]
      rw [if_pos h1]
    rw [henc, List.singleton_append]
    simp only [utf8DecodeOne]
    rw [if_pos h1]
  · by_cases h2 : c.toNat < 2048
    · have henc : utf8EncodeChar c
          = [192 + c.toNat / 64, 128 + c.toNat % 64] := by
        simp only [utf8EncodeChar]
        rw [if_neg h1, if_pos h2]
      rw [henc, List.cons_append, List.cons_append, List.nil_append]
      simp only [utf8DecodeOne]
      rw [if_neg (by omega), if_neg (by omega), if_pos (by omega)]
      simp only [utf8Cont1]
      rw [if_pos ⟨by omega, by omega⟩]
      have hval : (192 + c.toNat / 64 - 192) * 64 + (128 + c.toNat % 64 - 128)
          = c.toNat := by omega
      rw [hval]
    · by_cases h3 : c.toNat < 65536
      · have henc : utf8EncodeChar c
            = [224 + c.toNat / 4096, 128 + c.toNat / 64 % 64,
               128 + c.toNat % 64] := by
          simp only [utf8EncodeChar]
          rw [if_neg h1, if_neg h2, if_pos h3]
        rw [henc, List.cons_append, List.cons_append, List.cons_append,
          List.nil_append]
        simp only [utf8DecodeOne]
        rw [if_neg (by omega), if_neg (by omega), if_neg (by omega),
          if_pos (by omega)]
        simp only [utf8Cont2]
        rw [if_pos ⟨⟨by omega, by omega⟩, by omega, by omega⟩]
        have hval : (224 + c.toNat / 4096 - 224) * 4096
            + (128 + c.toNat / 64 % 64 - 128) * 64
            + (128 + c.toNat % 64 - 128) = c.toNat := by omega
        rw [hval]
        rw [if_neg (by omega)]
      · have henc : utf8EncodeChar c
            = [240 + c.toNat / 262144, 128 + c.toNat / 4096 % 64,
               128 + c.toNat / 64 % 64, 128 + c.toNat % 64] := by
          simp only [utf8EncodeChar]
          rw [if_neg h1, if_neg h2, if_neg h3]
        rw [henc, List.cons_append, List.cons_append, List.cons_append,
          List.cons_append, List.nil_append]
        simp only [utf8DecodeOne]
        rw [if_neg (by omega), if_neg (by omega), if_neg (by omega),
          if_neg (by omega), if_pos (by omega)]
        simp only [utf8Cont3]
        rw [if_pos ⟨⟨by omega, by omega⟩, ⟨by omega, by omega⟩,
          by omega, by omega⟩]
        have hval : (240 + c.toNat / 262144 - 240) * 262144
            + (128 + c.toNat / 4096 % 64 - 128) * 4096
            + (128 + c.toNat / 64 % 64 - 128) * 64
            + (128 + c.toNat % 64 - 128) = c.toNat := by omega
        rw [hval]
        rw [if_neg (by omega)]

/-- With enough fuel, decoding the UTF-8 bytes of a character list yields
that list back. -/
theorem utf8DecodeLoop_encode (l : List Char) :
    ∀ fuel : Nat, ((l.map utf8EncodeChar).flatten).length ≤ fuel →
      utf8DecodeLoop fuel ((l.map utf8EncodeChar).flatten) = some l := by
  induction l with
  | nil =>
    intro fuel _
    cases fuel <;> rfl
  | cons c t ih =>
    intro fuel hle
    rw [List.map_cons, List.flatten_cons] at hle ⊢
    rcases henc : utf8EncodeChar c with _ | ⟨e, es⟩
    · exact absurd henc (utf8EncodeChar_ne_nil c)
    · rw [henc, List.cons_append] at hle
      rw [List.cons_append]
      cases fuel with
      | zero =>
        exact absurd hle (by simp)
      | succ f =>
        have hone := utf8DecodeOne_encodeChar c ((t.map utf8EncodeChar).flatten)
        rw [henc, List.cons_append] at hone
        have hrest : ((t.map utf8EncodeChar).flatten).length ≤ f := by
          simp only [List.length_cons, List.length_append] at hle
          omega
        rw [utf8DecodeLoop, hone]
        show (utf8DecodeLoop f ((t.map utf8EncodeChar).flatten)).map
            (fun cs => Char.ofNat c.toNat :: cs) = some (c :: t)
        rw [Char.ofNat_toNat, ih f hrest]
        rfl

theorem utf8DecodeList_encode (l : List Char) :
    utf8DecodeList ((l.map utf8EncodeChar).flatten) = some l :=
  utf8DecodeLoop_encode l _ le_rfl

/-- Storing a string as its UTF-8 bytes and decoding them back is the
identity: the model of `response.encode()` then `.decode("utf-8")`. -/
theorem utf8Decode?_utf8Encode (s : String) :
    utf8Decode? (utf8Encode s) = some s := by
  unfold utf8Decode? utf8Encode
  rw [utf8DecodeList_encode]
  rfl

theorem utf8Encode_ne_nil (s : String) (h : s ≠ "") : utf8Encode s ≠ [] := by
  unfold utf8Encode
  cases hs : s.data with
  | nil =>
    exact absurd (show s = "" from congrArg String.mk hs) h
  | cons c t =>
    rw [List.map_cons, List.flatten_cons]
    intro hnil
    exact utf8EncodeChar_ne_nil c (List.append_eq_nil.mp hnil).1

/-! ### Store lemmas -/

theorem Store.set_apply_self (s : Store) (k : String) (e : Entry) :
    Store.set s k e k = some e := by
  simp [Store.set]

theorem Store.set_apply_ne (s : Store) (k : String) (e : Entry)
    (q : String) (h : q ≠ k) : Store.set s k e q = s q := by
  simp [Store.set, h]

theorem Store.get_set_self (s : Store) (k : String) (e : Entry) :
    Store.get (Store.set s k e) k = some e.value := by
  simp [Store.get, Store.set]

theorem Store.get_set_ne (s : Store) (k : String) (e : Entry)
    (q : String) (h : q ≠ k) :
    Store.get (Store.set s k e) q = Store.get s q := by
  simp [Store.get, Store.set, h]

theorem Store.readNat_set_ne (s : Store) (k : String) (e : Entry)
    (q : String) (h : q ≠ k) :
    Store.readNat (Store.set s k e) q = Store.readNat s q := by
  unfold Store.readNat
  rw [Store.get_set_ne s k e q h]

theorem Store.readNat_incr_self (s : Store) (k : String) :
    Store.readNat (Store.incr s k) k = Store.readNat s k + 1 := by
  unfold Store.incr
  unfold Store.readNat
  rw [Store.get_set_self]
  simp [decDecode?_decEncode]

theorem Store.incr_apply_ne (s : Store) (k q : String) (h : q ≠ k) :
    Store.incr s k q = s q := by
  unfold Store.incr
  exact Store.set_apply_ne s k _ q h

/-! ### How one wrapper call unfolds -/

/-- The increment of the counter key does not disturb the cache key: the two
key namespaces are disjoint. -/
theorem get_incr_cacheKey (s : Store) (url : String) :
    Store.get (Store.incr s ("count:" ++ url)) (sanitize_url url)
      = Store.get s (sanitize_url url) := by
  unfold Store.incr
  exact Store.get_set_ne s ("count:" ++ url) _ (sanitize_url url)
    (Ne.symm (countKey_ne_cacheKey url url))

theorem track_get_page_miss {ε : Type} (fn : String → Except ε String)
    (url : String) (s : Store) (h : missAt s url) :
    track_get_page fn url s
      = missFetch fn url (Store.incr s ("count:" ++ url))
          (sanitize_url url) := by
  simp only [track_get_page]
  rw [get_incr_cacheKey]
  rcases h with h | h <;> rw [h] <;> simp

theorem track_get_page_hit {ε : Type} (fn : String → Except ε String)
    (url : String) (s : Store) (v : List Nat)
    (h : Store.get s (sanitize_url url) = some v) (hv : v ≠ []) :
    track_get_page fn url s
      = ⟨match utf8Decode? v with
          | some page => Except.ok page
          | none => Except.error PyErr.decode,
         Store.incr s ("count:" ++ url), 0⟩ := by
  simp only [track_get_page]
  rw [get_incr_cacheKey, h]
  simp only [if_neg hv]
  cases hd : utf8Decode? v <;> simp [hd]

theorem missFetch_error {ε : Type} (fn : String → Except ε String)
    (url : String) (s1 : Store) (ck : String) (e : ε)
    (h : fn url = Except.error e) :
    missFetch fn url s1 ck = ⟨Except.error (PyErr.fetch e), s1, 1⟩ := by
  unfold missFetch
  rw [h]

theorem missFetch_ok {ε : Type} (fn : String → Except ε String)
    (url : String) (s1 : Store) (ck : String) (c : String)
    (h : fn url = Except.ok c) :
    missFetch fn url s1 ck
      = ⟨Except.ok c,
         Store.setex s1 ck CACHE_EXPIRATION (utf8Encode c), 1⟩ := by
  unfold missFetch
  rw [h]

/-- Across a miss, whatever the fetch outcome, the counter at `count:<url>`
ends exactly one higher (the cache write, if any, is at a disjoint key). -/
theorem readNat_missFetch {ε : Type} (fn : String → Except ε String)
    (url : String) (s : Store) :
    Store.readNat (missFetch fn url (Store.incr s ("count:" ++ url))
        (sanitize_url url)).store ("count:" ++ url)
      = Store.readNat s ("count:" ++ url) + 1 := by
  cases hf : fn url with
  | error e =>
    rw [missFetch_error fn url _ _ e hf]
    exact Store.readNat_incr_self s _
  | ok c =>
    rw [missFetch_ok fn url _ _ c hf]
    show Store.readNat (Store.setex (Store.incr s ("count:" ++ url))
        (sanitize_url url) CACHE_EXPIRATION (utf8Encode c)) ("count:" ++ url)
      = Store.readNat s ("count:" ++ url) + 1
    unfold Store.setex
    rw [Store.readNat_set_ne _ _ _ _ (countKey_ne_cacheKey url url)]
    exact Store.readNat_incr_self s _

/-! ### The claims -/

set_option maxRecDepth 20000 in
/-- C1 counterexample: the claim says a stored value under the cache key is
returned without invoking the page fetch, but with a present-but-EMPTY
cached value the wrapper invokes the fetch once (Python truthiness treats
the falsy value as a miss) and returns the fresh page, not the stored one. -/
theorem C1_counterexample :
    (track_get_page pageFnX "u" storeEmptyEntry).fetchCalls = 1 ∧
    (track_get_page pageFnX "u" storeEmptyEntry).result = Except.ok "x" := by
  decide

/-- C1 (amended): if the store holds a NON-EMPTY value under the derived
cache key, `fetch(u)` does not invoke the injected page-fetch function, the
only store change is the counter increment, and it immediately returns the
UTF-8 decoding of the stored value (a decode failure propagating as an
error). -/
theorem C1_amended_hit_no_fetch {ε : Type} (fn : String → Except ε String)
    (url : String) (s : Store) (v : List Nat)
    (h : Store.get s (sanitize_url url) = some v) (hv : v ≠ []) :
    (track_get_page fn url s).fetchCalls = 0 ∧
    (track_get_page fn url s).store = Store.incr s ("count:" ++ url) ∧
    (track_get_page fn url s).result
      = (match utf8Decode? v with
         | some page => Except.ok page
         | none => Except.error PyErr.decode) := by
  rw [track_get_page_hit fn url s v h hv]
  exact ⟨rfl, rfl, rfl⟩

set_option maxRecDepth 20000 in
/-- C1 witness: the amended claim at a store holding byte `h` under the
cache key of `"u"`. -/
theorem C1_witness :
    (track_get_page pageFnX "u" storeHEntry).fetchCalls = 0 ∧
    (track_get_page pageFnX "u" storeHEntry).store
      = Store.incr storeHEntry ("count:" ++ "u") ∧
    (track_get_page pageFnX "u" storeHEntry).result
      = (match utf8Decode? [104] with
         | some page => Except.ok page
         | none => Except.error PyErr.decode) :=
  C1_amended_hit_no_fetch pageFnX "u" storeHEntry [104] (by decide) (by decide)

set_option maxRecDepth 20000 in
/-- C2 counterexample: with a fetcher returning the EMPTY page, two calls
from the empty store both return the identical content but the underlying
fetch runs twice, not once — the empty cached value is falsy, so the second
call misses again. -/
theorem C2_counterexample :
    (track_get_page pageFnEmpty "u" Store.empty).fetchCalls
      + (track_get_page pageFnEmpty "u"
          (track_get_page pageFnEmpty "u" Store.empty).store).fetchCalls
      = 2 ∧
    (track_get_page pageFnEmpty "u" Store.empty).result = Except.ok "" ∧
    (track_get_page pageFnEmpty "u"
        (track_get_page pageFnEmpty "u" Store.empty).store).result
      = Except.ok "" := by
  decide

/-- C2 (amended): for NON-EMPTY page content, calling fetch twice in
immediate succession from the empty store performs exactly one underlying
page fetch and both calls return the identical content. -/
theorem C2_amended_idempotent_nonempty {ε : Type}
    (fn : String → Except ε String) (u c : String)
    (hok : fn u = Except.ok c) (hc : c ≠ "") :
    (track_get_page fn u Store.empty).fetchCalls
      + (track_get_page fn u
          (track_get_page fn u Store.empty).store).fetchCalls = 1 ∧
    (track_get_page fn u Store.empty).result = Except.ok c ∧
    (track_get_page fn u (track_get_page fn u Store.empty).store).result
      = Except.ok c := by
  have hmiss : missAt Store.empty u := Or.inl rfl
  have h1 : track_get_page fn u Store.empty
      = ⟨Except.ok c,
         Store.setex (Store.incr Store.empty ("count:" ++ u)) (sanitize_url u)
           CACHE_EXPIRATION (utf8Encode c), 1⟩ := by
    rw [track_get_page_miss fn u Store.empty hmiss, missFetch_ok fn u _ _ c hok]
  have hget2 : Store.get (track_get_page fn u Store.empty).store
      (sanitize_url u) = some (utf8Encode c) := by
    rw [h1]
    show Store.get (Store.setex (Store.incr Store.empty ("count:" ++ u))
        (sanitize_url u) CACHE_EXPIRATION (utf8Encode c)) (sanitize_url u)
      = some (utf8Encode c)
    unfold Store.setex
    exact Store.get_set_self _ _ _
  have h2 := track_get_page_hit fn u ((track_get_page fn u Store.empty).store)
      (utf8Encode c) hget2 (utf8Encode_ne_nil c hc)
  refine ⟨?_, ?_, ?_⟩
  · rw [h2, h1]
    rfl
  · rw [h1]
  · rw [h2, utf8Decode?_utf8Encode]

/-- C2 witness: the amended claim with a stub fetcher returning "hello". -/
theorem C2_witness :
    (track_get_page pageFnHello "u" Store.empty).fetchCalls
      + (track_get_page pageFnHello "u"
          (track_get_page pageFnHello "u" Store.empty).store).fetchCalls = 1 ∧
    (track_get_page pageFnHello "u" Store.empty).result = Except.ok "hello" ∧
    (track_get_page pageFnHello "u"
        (track_get_page pageFnHello "u" Store.empty).store).result
      = Except.ok "hello" :=
  C2_amended_idempotent_nonempty pageFnHello "u" "hello" rfl (by decide)

/-- C3: every call of the wrapper increments the counter stored under the
key `count:` followed by the raw URL by exactly one, unconditionally, on
cache hit and cache miss alike, whatever the fetch outcome. -/
theorem C3_counter_increments_unconditionally {ε : Type}
    (fn : String → Except ε String) (url : String) (s : Store) :
    Store.readNat (track_get_page fn url s).store ("count:" ++ url)
      = Store.readNat s ("count:" ++ url) + 1 := by
  rcases hg : Store.get s (sanitize_url url) with _ | v
  · rw [track_get_page_miss fn url s (Or.inl hg)]
    exact readNat_missFetch fn url s
  · by_cases hv : v = []
    · subst hv
      rw [track_get_page_miss fn url s (Or.inr hg)]
      exact readNat_missFetch fn url s
    · rw [track_get_page_hit fn url s v hg hv]
      exact Store.readNat_incr_self s ("count:" ++ url)

/-- C4: when the injected page-fetch function fails during a cache miss,
the failure propagates to the caller unmodified (wrapped only as the fetch
arm of the error type), no key other than the counter is written — in
particular nothing is cached — and the counter increment is not rolled
back. -/
theorem C4_fetch_failure_propagates {ε : Type}
    (fn : String → Except ε String) (url : String) (s : Store) (e : ε)
    (hf : fn url = Except.error e) (hm : missAt s url) :
    (track_get_page fn url s).result = Except.error (PyErr.fetch e) ∧
    (∀ k, k ≠ "count:" ++ url → (track_get_page fn url s).store k = s k) ∧
    Store.readNat (track_get_page fn url s).store ("count:" ++ url)
      = Store.readNat s ("count:" ++ url) + 1 := by
  rw [track_get_page_miss fn url s hm, missFetch_error fn url _ _ e hf]
  exact ⟨rfl, fun k hk => Store.incr_apply_ne s _ k hk,
    Store.readNat_incr_self s _⟩

/-- C4 witness: a failing fetcher on the empty store; the cache key stays
absent and the counter ends one higher. -/
theorem C4_witness :
    (track_get_page pageFnFail "u" Store.empty).result
      = Except.error (PyErr.fetch 7) ∧
    (track_get_page pageFnFail "u" Store.empty).store (sanitize_url "u")
      = Store.empty (sanitize_url "u") ∧
    Store.readNat (track_get_page pageFnFail "u" Store.empty).store
        ("count:" ++ "u")
      = Store.readNat Store.empty ("count:" ++ "u") + 1 := by
  have h := C4_fetch_failure_propagates pageFnFail "u" Store.empty 7 rfl
    (Or.inl rfl)
  exact ⟨h.1, h.2.1 (sanitize_url "u") (Ne.symm (countKey_ne_cacheKey "u" "u")),
    h.2.2⟩

/-- C5: on a cache miss the wrapper invokes the injected fetch function,
stores the fetched content under the derived cache key with the single
global TTL constant `CACHE_EXPIRATION` (the same for every URL, expiration
delegated to the store), and returns the freshly fetched content. -/
theorem C5_miss_fetches_caches_with_ttl {ε : Type}
    (fn : String → Except ε String) (url : String) (s : Store) (c : String)
    (hf : fn url = Except.ok c) (hm : missAt s url) :
    (track_get_page fn url s).result = Except.ok c ∧
    (track_get_page fn url s).store (sanitize_url url)
      = some ⟨utf8Encode c, some CACHE_EXPIRATION⟩ ∧
    (track_get_page fn url s).fetchCalls = 1 := by
  rw [track_get_page_miss fn url s hm, missFetch_ok fn url _ _ c hf]
  exact ⟨rfl, Store.set_apply_self _ _ _, rfl⟩

/-- C5 witness: fetching "hello" into the empty store caches it under the
derived key with TTL `CACHE_EXPIRATION` and returns it. -/
theorem C5_witness :
    (track_get_page pageFnHello "u" Store.empty).result = Except.ok "hello" ∧
    (track_get_page pageFnHello "u" Store.empty).store (sanitize_url "u")
      = some ⟨utf8Encode "hello", some CACHE_EXPIRATION⟩ ∧
    (track_get_page pageFnHello "u" Store.empty).fetchCalls = 1 :=
  C5_miss_fetches_caches_with_ttl pageFnHello "u" Store.empty "hello" rfl
    (Or.inl rfl)

/-- C6: for all URLs `u` and `v`, the counter key `count:` ++ `u` never
equals the cache key `sanitize_url v`: the two key namespaces are disjoint,
so counters and cached content cannot collide. -/
theorem C6_key_namespaces_disjoint (u v : String) :
    ("count:" ++ u) ≠ sanitize_url v :=
  countKey_ne_cacheKey u v

/-- C7: `sanitize_url` is a total pure function (a Lean function of the URL
alone): repeated application to the same URL yields an identical key, and
every URL yields a key of one fixed length consisting of hexadecimal
digits. -/
theorem C7_derive_deterministic_fixed_length_hex (u v : String) :
    sanitize_url u = sanitize_url u ∧
    (sanitize_url u).length = (sanitize_url v).length ∧
    ∀ c ∈ (sanitize_url u).data, hexLower c := by
  refine ⟨rfl, ?_, sanitize_url_hex u⟩
  rw [sanitize_url_len, sanitize_url_len]

set_option maxRecDepth 20000 in
/-- C7 witness: two sample URLs have keys of equal length, and the first
character of the key of "a" is a hex digit. -/
theorem C7_witness :
    sanitize_url "a" = sanitize_url "a" ∧
    (sanitize_url "a").length = (sanitize_url "bb").length ∧
    hexLower '0' := by
  have h := C7_derive_deterministic_fixed_length_hex "a" "bb"
  exact ⟨h.1, h.2.1, h.2.2 '0' (by decide)⟩

/-- C8: on a cache hit (a non-empty value under the derived cache key) the
wrapper writes nothing but the counter: the cached entry — value and TTL —
is untouched and every key other than the counter key is unchanged. -/
theorem C8_hit_writes_only_counter {ε : Type} (fn : String → Except ε String)
    (url : String) (s : Store) (v : List Nat)
    (h : Store.get s (sanitize_url url) = some v) (hv : v ≠ []) :
    (track_get_page fn url s).store (sanitize_url url)
      = s (sanitize_url url) ∧
    ∀ k, k ≠ "count:" ++ url → (track_get_page fn url s).store k = s k := by
  rw [track_get_page_hit fn url s v h hv]
  exact ⟨Store.incr_apply_ne s _ _ (Ne.symm (countKey_ne_cacheKey url url)),
    fun k hk => Store.incr_apply_ne s _ k hk⟩

set_option maxRecDepth 20000 in
/-- C8 witness: a hit on a store holding byte `h` leaves the cache entry and
an unrelated key unchanged. -/
theorem C8_witness :
    (track_get_page pageFnX "u" storeHEntry).store (sanitize_url "u")
      = storeHEntry (sanitize_url "u") ∧
    (track_get_page pageFnX "u" storeHEntry).store "other"
      = storeHEntry "other" := by
  have h := C8_hit_writes_only_counter pageFnX "u" storeHEntry [104]
    (by decide) (by decide)
  exact ⟨h.1, h.2 "other" (by decide)⟩

/-- C9: for every URL, `sanitize_url` returns exactly 32 characters, each a
lowercase hexadecimal digit — the MD5 hex digest of the URL's UTF-8
encoding. -/
theorem C9_derive_is_32_lowercase_hex (url : String) :
    (sanitize_url url).length = 32 ∧
    ∀ c ∈ (sanitize_url url).data, hexLower c :=
  ⟨sanitize_url_len url, sanitize_url_hex url⟩

set_option maxRecDepth 20000 in
/-- C9 witness: the key of the empty URL has length 32 and its first
character `d` is a lowercase hex digit. -/
theorem C9_witness :
    (sanitize_url "").length = 32 ∧ hexLower 'd' := by
  have h := C9_derive_is_32_lowercase_hex ""
  exact ⟨h.1, h.2 'd' (by decide)⟩

/-- C10: round trip of cached content — after a miss stores non-empty
content `c`, a subsequent call for the same URL returns a string equal to
`c`: UTF-8 encoding on the store and UTF-8 decoding on the hit path are
mutually inverse on the content. -/
theorem C10_roundtrip_second_fetch {ε : Type}
    (fn : String → Except ε String) (u : String) (s : Store) (c : String)
    (hm : missAt s u) (hf : fn u = Except.ok c) (hc : c ≠ "") :
    (track_get_page fn u (track_get_page fn u s).store).result
      = Except.ok c := by
  have h1 : track_get_page fn u s
      = ⟨Except.ok c,
         Store.setex (Store.incr s ("count:" ++ u)) (sanitize_url u)
           CACHE_EXPIRATION (utf8Encode c), 1⟩ := by
    rw [track_get_page_miss fn u s hm, missFetch_ok fn u _ _ c hf]
  have hget2 : Store.get (track_get_page fn u s).store (sanitize_url u)
      = some (utf8Encode c) := by
    rw [h1]
    show Store.get (Store.setex (Store.incr s ("count:" ++ u))
        (sanitize_url u) CACHE_EXPIRATION (utf8Encode c)) (sanitize_url u)
      = some (utf8Encode c)
    unfold Store.setex
    exact Store.get_set_self _ _ _
  rw [track_get_page_hit fn u ((track_get_page fn u s).store) (utf8Encode c)
    hget2 (utf8Encode_ne_nil c hc), utf8Decode?_utf8Encode]

/-- C10 witness: "hello" fetched into the empty store is returned intact by
the second call. -/
theorem C10_witness :
    (track_get_page pageFnHello "u"
        (track_get_page pageFnHello "u" Store.empty).store).result
      = Except.ok "hello" :=
  C10_roundtrip_second_fetch pageFnHello "u" Store.empty "hello" (Or.inl rfl)
    rfl (by decide)
